import Mathlib

/-!
Verification of the lootbin repository.

The repository ships a README and the browser front-end
`static/js/app.js`.  The front-end logic (fetch wrapper, slot-machine
spin state machine, event log, polling loop, settings page handlers) is
embedded below as executable Lean definitions; JavaScript numbers are
modelled as rationals, DOM state as explicit records, and the
nondeterminism of Math.random as an explicit oracle argument.

The backend outcome-cycle generator described by the README and the spec
is not among the provided source files; it is modelled from the spec
(section 4.1) and clearly marked as such.
-/

namespace LootBin

/-! ## Model of JavaScript values

Fields of JSON responses can be absent (undefined), null, booleans,
numbers or strings.  JavaScript numbers are modelled as rationals
(floating-point rounding plays no role in the claims considered here;
NaN does not arise in the modelled code paths). -/

inductive JSValue where
  | undef
  | null
  | bool (b : Bool)
  | num (q : ℚ)
  | str (s : String)
  deriving DecidableEq

/-- Truthiness of a JavaScript value, as used by `Boolean(v)` and by
conditions.  `Boolean(undefined) = Boolean(null) = false`, a number is
truthy unless it is `0`, a string is truthy unless it is empty. -/
def JSValue.truthy : JSValue → Bool
  | .undef => false
  | .null => false
  | .bool b => b
  | .num q => decide (q ≠ 0)
  | .str s => decide (s ≠ "")

/-- Nullish coalescing `v ?? d`: yields `d` exactly when `v` is
`undefined` or `null`. -/
def JSValue.coalesce : JSValue → JSValue → JSValue
  | .undef, d => d
  | .null, d => d
  | .bool b, _ => .bool b
  | .num q, _ => .num q
  | .str s, _ => .str s

/-! ## fetchJSON (app.js lines 9-17)

A `fetch` response is modelled by its `ok` flag and its plain-text body.
Parsing the body as JSON (`res.json()`) is modelled by an arbitrary
parse function passed as a parameter, so that theorems can express that
the error path never consults it. -/

structure HttpResponse where
  ok : Bool
  bodyText : String

/-- Embedding of `fetchJSON`: on a non-ok response it throws an `Error`
whose message is the text body, with the JavaScript `message || "Request
failed"` fallback (the empty string is the only falsy string); on an ok
response it returns the parsed JSON body. -/
def fetchJSON (parse : String → Except String JSValue) (res : HttpResponse) :
    Except String JSValue :=
  if !res.ok then
    .error (if res.bodyText = "" then "Request failed" else res.bodyText)
  else
    parse res.bodyText

/-! ## Symbols (app.js lines 21-29) -/

/-- Embedding of the `SYMBOL_EMOJI` object literal: keys in declaration
order, with their emoji values. -/
def SYMBOL_EMOJI : List (String × String) :=
  [("CHERRY", "🍒"), ("LEMON", "🍋"), ("STAR", "⭐"),
   ("BELL", "🔔"), ("DIAMOND", "💎"), ("SEVEN", "7️⃣")]

/-- Embedding of `SYMBOL_ORDER = Object.keys(SYMBOL_EMOJI)`. -/
def SYMBOL_ORDER : List String := SYMBOL_EMOJI.map Prod.fst

/-! ## Fisher-Yates shuffle (app.js lines 160-167)

`Math.random()` is modelled by an oracle `rnd : ℕ → ℚ` giving the value
drawn at loop index `i`; its contract is `0 ≤ rnd i < 1`, under which
`Math.floor(Math.random() * (i + 1))` is a natural number in `[0, i]`,
modelled by `(⌊rnd i * (i + 1)⌋).toNat`. -/

/-- One iteration of the shuffle loop: the destructuring swap
`[pool[i], pool[j]] = [pool[j], pool[i]]` reads both elements and then
writes them back crosswise (a no-op if either index is out of range,
which does not happen for in-contract random values). -/
def shuffleStep (rnd : ℕ → ℚ) (pool : List String) (i : ℕ) : List String :=
  let j := (⌊rnd i * ((i : ℚ) + 1)⌋).toNat
  match pool[i]?, pool[j]? with
  | some a, some b => (pool.set i b).set j a
  | _, _ => pool

/-- Index sequence of the loop `for (let i = n; i > 0; i--)`:
`downFrom n = [n, n-1, ..., 1]`. -/
def downFrom : ℕ → List ℕ
  | 0 => []
  | n + 1 => (n + 1) :: downFrom n

/-- Embedding of `shuffledSymbols(exclude)`: filter out `exclude`, then
Fisher-Yates shuffle the remainder in place. -/
def shuffledSymbols (rnd : ℕ → ℚ) (exclude : String) : List String :=
  let pool := SYMBOL_ORDER.filter (fun sym => sym ≠ exclude)
  (downFrom (pool.length - 1)).foldl (shuffleStep rnd) pool

/-- Embedding of `buildFaces(targetSymbol)` (app.js lines 185-189).
BoxGeometry face order is +x, -x, +y, -y, +z (front), -z (back); the
front face carries the target.  Out-of-range indexing (JavaScript
`undefined`) is modelled by the default `""`; it cannot occur when the
target is one of the six symbols. -/
def buildFaces (rnd : ℕ → ℚ) (targetSymbol : String) : List String :=
  let others := shuffledSymbols rnd targetSymbol
  [others.getD 0 "", others.getD 1 "", others.getD 2 "", others.getD 3 "",
   targetSymbol, others.getD 4 ""]

/-! ## Home page state (app.js lines 81-95, 107-121) -/

/-- Audio preferences object (lines 92-95); both default to `true`. -/
structure AudioPrefs where
  music : Bool
  sfx : Bool

/-- Initial value of `audioPrefs`. -/
def initialAudioPrefs : AudioPrefs := { music := true, sfx := true }

/-- Audio side effects issued by the page (`playMusic` / `playSfx`
ultimately call `playAudio` with a media kind). -/
inductive AudioCall where
  | music (kind : String)
  | sfx (kind : String)
  deriving DecidableEq

/-- Embedding of `playMusic(kind)` (lines 113-116): gated on the music
preference. -/
def playMusic (prefs : AudioPrefs) (kind : String) : List AudioCall :=
  if prefs.music then [.music kind] else []

/-- Embedding of `playSfx(kind)` (lines 118-121): gated on the sfx
preference. -/
def playSfx (prefs : AudioPrefs) (kind : String) : List AudioCall :=
  if prefs.sfx then [.sfx kind] else []

/-- The mutable `spinState` object (lines 81-90).  Times and durations
are in milliseconds. -/
structure SpinState where
  active : Bool
  start : ℚ
  durations : List ℚ
  locked : List Bool
  targets : List String
  isWin : Bool
  settleDelay : ℚ
  maxDuration : ℚ
  deriving DecidableEq

/-- Initial value of `spinState`. -/
def initialSpinState : SpinState :=
  { active := false, start := 0, durations := [3200, 6400, 9600],
    locked := [false, false, false], targets := ["CHERRY", "LEMON", "STAR"],
    isWin := false, settleDelay := 350, maxDuration := 0 }

/-- DOM state of the home page touched by the spin logic: the WIN
banner's `hidden` attribute and the status message text. -/
structure HomeDom where
  winBannerHidden : Bool
  statusMessage : String
  deriving DecidableEq

/-- Body of one `/api/next-event` response (spec section 6); when
`eventAvailable` is false the remaining fields are absent in the JSON
and unused by the code. -/
structure NextEvent where
  eventAvailable : Bool
  created_at : ℚ
  source : String
  win : Bool
  reels : List String
  deriving DecidableEq

/-! ## updateSpin (app.js lines 209-240)

The per-frame animation callback.  The pure visual rotation update
(lines 220-222 and 225, floating-point logarithmic decay of the wheel
angle) and the three.js material swap of `setReelSymbol` (line 224,
which places `buildFaces(target)` on the mesh, covered separately) are
elided; the lock bookkeeping, the settle condition and all DOM/audio
effects are embedded faithfully. -/

/-- Embedding of `updateSpin(now)`.  Note that `allLocked` is computed
from the lock flags as they were when the frame started: a reel locked
during this very frame still sets `allLocked = false` (line 217 runs
before line 226), so settling happens on a later frame. -/
def updateSpin (now : ℚ) (s : SpinState) (dom : HomeDom) (prefs : AudioPrefs) :
    SpinState × HomeDom × List AudioCall :=
  if !s.active then (s, dom, [])
  else
    let elapsed := now - s.start
    let allLocked := (List.range 3).all (fun idx => s.locked.getD idx false)
    let locked1 := (List.range 3).map
      (fun idx => s.locked.getD idx false || decide (elapsed ≥ s.durations.getD idx 0))
    let s1 := { s with locked := locked1 }
    if allLocked && decide (elapsed ≥ s.maxDuration + s.settleDelay) then
      ({ s1 with active := false },
       { winBannerHidden := !s.isWin,
         statusMessage :=
           if s.isWin then "Jackpot! Stepper fired for 3 seconds."
           else "No luck. Waiting for the next drop." },
       playSfx prefs "ching" ++ if s.isWin then playMusic prefs "victory" else [])
    else
      (s1, dom, [])

/-! ## spin (app.js lines 242-256) -/

/-- Embedding of `spin(result)`.  `now` models `performance.now()`;
`r1 r2 r3` model the three `Math.random()` draws used for the reel
durations. -/
def spin (now r1 r2 r3 : ℚ) (result : NextEvent) (s : SpinState)
    (dom : HomeDom) (prefs : AudioPrefs) :
    SpinState × HomeDom × List AudioCall :=
  let firstDuration := 3200 + r1 * 250
  let secondDuration := firstDuration * 2 + r2 * 180
  let thirdDuration := firstDuration * 3 + r3 * 200
  ({ s with
      active := true, start := now, locked := [false, false, false],
      durations := [firstDuration, secondDuration, thirdDuration],
      maxDuration := max (max firstDuration secondDuration) thirdDuration,
      targets := result.reels, isWin := result.win },
   { dom with winBannerHidden := true,
              statusMessage := "Spinning (" ++ result.source ++ ")..." },
   playMusic prefs (if result.win then "win" else "loose"))

/-! ## logEvent (app.js lines 258-267) -/

/-- One line of the on-screen event log.  The DOM text is rendered from
the timestamp (a JavaScript `Date` built from `created_at * 1000`
milliseconds, then locale-formatted), the upper-cased source, the
win/loss word and the joined reels; the locale time formatting itself is
not modelled, the data it is rendered from is. -/
structure LogEntry where
  tsMillis : ℚ
  source : String
  win : Bool
  reels : List String
  deriving DecidableEq

/-- The log line built for an event (lines 259-262). -/
def logLine (event : NextEvent) : LogEntry :=
  { tsMillis := event.created_at * 1000, source := event.source,
    win := event.win, reels := event.reels }

/-- The loop `while (childElementCount > 5) removeChild(lastChild)`
(lines 264-266), with the list length as explicit fuel so that the
recursion is structural.  The log list is newest-first, so the last DOM
child is the last list element. -/
def trimWhile : ℕ → List LogEntry → List LogEntry
  | 0, l => l
  | fuel + 1, l => if l.length > 5 then trimWhile fuel l.dropLast else l

/-- Embedding of `logEvent(event)`: prepend the new line, then trim from
the back down to five entries. -/
def logEvent (event : NextEvent) (log : List LogEntry) : List LogEntry :=
  let log1 := logLine event :: log
  trimWhile log1.length log1

/-! ## pollEvents (app.js lines 269-282, and sleep at lines 5-7) -/

/-- State of the home page acted on by the polling loop. -/
structure HomeState where
  spinS : SpinState
  dom : HomeDom
  log : List LogEntry
  deriving DecidableEq

/-- One iteration of the `while (true)` polling body: on a successful
fetch with an available event it starts the spin and logs the event; on
a failed fetch it sets the status message; in every case it then awaits
`sleep(900)`.  The returned list collects the `sleep` durations awaited
by the iteration, in order. -/
def pollBody (now r1 r2 r3 : ℚ) (prefs : AudioPrefs)
    (resp : Except String NextEvent) (st : HomeState) : HomeState × List ℚ :=
  match resp with
  | .ok data =>
      if data.eventAvailable then
        let res := spin now r1 r2 r3 data st.spinS st.dom prefs
        ({ spinS := res.1, dom := res.2.1, log := logEvent data st.log }, [900])
      else
        (st, [900])
  | .error _ =>
      ({ st with dom := { st.dom with statusMessage := "Unable to reach backend." } },
       [900])

/-! ## Settings page (app.js lines 305-365) -/

/-- Body of an `/api/config` response; each field may be absent. -/
structure ConfigJson where
  win_ratio : JSValue
  simulator_mode : JSValue
  music_enabled : JSValue
  sfx_enabled : JSValue
  deriving DecidableEq

/-- Embedding of `loadAudioPrefs` (lines 97-105): on success read the
two audio flags with `!== false`; on a failed fetch keep the current
(default) preferences. -/
def loadAudioPrefs (resp : Except String ConfigJson) (prefs : AudioPrefs) :
    AudioPrefs :=
  match resp with
  | .ok data =>
      { music := decide (ConfigJson.music_enabled data ≠ .bool false),
        sfx := decide (ConfigJson.sfx_enabled data ≠ .bool false) }
  | .error _ => prefs

/-- DOM state of the settings form. -/
structure SettingsDom where
  winRatioValue : JSValue
  simulatorChecked : Bool
  musicChecked : Bool
  sfxChecked : Bool
  statusText : String
  deriving DecidableEq

/-- Embedding of `loadConfig` (lines 320-331): `win_ratio ?? 0.25` into
the slider, `Boolean(simulator_mode)` into the simulator checkbox,
`music_enabled !== false` and `sfx_enabled !== false` into the audio
checkboxes; on a failed fetch only the status text changes. -/
def loadConfig (resp : Except String ConfigJson) (dom : SettingsDom) :
    SettingsDom :=
  match resp with
  | .ok data =>
      { dom with
          winRatioValue := JSValue.coalesce (ConfigJson.win_ratio data) (.num 0.25),
          simulatorChecked := JSValue.truthy (ConfigJson.simulator_mode data),
          musicChecked := decide (ConfigJson.music_enabled data ≠ .bool false),
          sfxChecked := decide (ConfigJson.sfx_enabled data ≠ .bool false) }
  | .error _ => { dom with statusText := "Failed to load config" }

/-- An HTTP request issued by the front-end. -/
structure HttpRequest where
  url : String
  method : String
  deriving DecidableEq

/-- Embedding of the settings-page `keydown` handler (lines 352-362):
the request to `/api/simulate-hit` is issued exactly when the key code
is `"Space"` and the simulator-mode checkbox is checked. -/
def keydownHandler (code : String) (simulatorChecked : Bool) :
    Option HttpRequest :=
  if code = "Space" && simulatorChecked then
    some { url := "/api/simulate-hit", method := "POST" }
  else none

/-! ## Outcome Cycle Generator (spec section 4.1)

The backend that implements the generator is not among the provided
source files; the definitions below are modelled from the spec. -/

/-- Modelled from the spec: the backend Outcome Cycle Generator's win
count, `winCount = round(winRatio × cycleLength)`, clamped to
`[0, cycleLength]` (spec section 4.1; the backend source implementing
it is not among the provided files). -/
def winCount (N : ℕ) (r : ℚ) : ℕ := min (round (r * N)).toNat N

/-- Modelled from the spec: the win slots are placed at positions
`floor(i × cycleLength / winCount)` for `i` in `0..winCount-1` (spec
section 4.1; the backend source implementing it is not among the
provided files). -/
def winPositions (N W : ℕ) : List ℕ :=
  (List.range W).map (fun i => i * N / W)

/-- Modelled from the spec: `generate(cycleLength, winRatio)` builds the
fixed-length cycle of win/loss slots, a slot being a win exactly when
its index is one of the win positions (spec section 4.1; the backend
source implementing it is not among the provided files). -/
def generate (N : ℕ) (r : ℚ) : List Bool :=
  (List.range N).map (fun k => decide (k ∈ winPositions N (winCount N r)))

/-! ## Helper lemmas: the destructuring swap is a permutation -/

/-- Moving the element at index `m` to the front while writing `c` into
its slot permutes `c` onto the front. -/
lemma get_cons_set_perm {α : Type} (t : List α) :
    ∀ (m : ℕ) (hm : m < t.length) (c : α),
      List.Perm (t.get ⟨m, hm⟩ :: t.set m c) (c :: t) := by
  induction t with
  | nil => intro m hm c; simp at hm
  | cons d s ih =>
    intro m hm c
    cases m with
    | zero => simpa using List.Perm.swap c d s
    | succ m =>
      have hm2 : m < s.length := by simpa using hm
      have step1 : List.Perm (s.get ⟨m, hm2⟩ :: d :: s.set m c)
          (d :: s.get ⟨m, hm2⟩ :: s.set m c) :=
        List.Perm.swap d (s.get ⟨m, hm2⟩) (s.set m c)
      have step2 : List.Perm (d :: s.get ⟨m, hm2⟩ :: s.set m c) (d :: c :: s) :=
        List.Perm.cons d (ih m hm2 c)
      have step3 : List.Perm (d :: c :: s) (c :: d :: s) := List.Perm.swap c d s
      simpa using step1.trans (step2.trans step3)

/-- Writing the two elements at positions `i` and `j` back crosswise is
a permutation. -/
lemma set_set_perm {α : Type} :
    ∀ (l : List α) (i j : ℕ) (hi : i < l.length) (hj : j < l.length),
      List.Perm ((l.set i (l.get ⟨j, hj⟩)).set j (l.get ⟨i, hi⟩)) l := by
  intro l
  induction l with
  | nil => intro i j hi _; simp at hi
  | cons c t ih =>
    intro i j hi hj
    cases i with
    | zero =>
      cases j with
      | zero => simp
      | succ j =>
        simpa using get_cons_set_perm t j (by simpa using hj) c
    | succ i =>
      cases j with
      | zero =>
        simpa using get_cons_set_perm t i (by simpa using hi) c
      | succ j =>
        simpa using List.Perm.cons c (ih i j (by simpa using hi) (by simpa using hj))

/-- One shuffle iteration permutes the pool. -/
lemma shuffleStep_perm (rnd : ℕ → ℚ) (pool : List String) (i : ℕ) :
    List.Perm (shuffleStep rnd pool i) pool := by
  unfold shuffleStep
  cases h1 : pool[i]? with
  | none =>
    cases h2 : pool[(⌊rnd i * ((i : ℚ) + 1)⌋).toNat]? <;> simp [h1, h2]
  | some a =>
    cases h2 : pool[(⌊rnd i * ((i : ℚ) + 1)⌋).toNat]? with
    | none => simp [h1, h2]
    | some b =>
      obtain ⟨hi, ha⟩ := List.getElem?_eq_some_iff.mp h1
      obtain ⟨hj, hb⟩ := List.getElem?_eq_some_iff.mp h2
      have hperm := set_set_perm pool i (⌊rnd i * ((i : ℚ) + 1)⌋).toNat hi hj
      simp only [List.get_eq_getElem] at hperm
      simp only [h1, h2]
      rw [← ha, ← hb]
      exact hperm

/-- Folding shuffle iterations over any index sequence permutes the
pool. -/
lemma foldl_shuffle_perm (rnd : ℕ → ℚ) :
    ∀ (idxs : List ℕ) (pool : List String),
      List.Perm (idxs.foldl (shuffleStep rnd) pool) pool := by
  intro idxs
  induction idxs with
  | nil => intro pool; exact List.Perm.refl _
  | cons i is ih =>
    intro pool
    exact (ih (shuffleStep rnd pool i)).trans (shuffleStep_perm rnd pool i)

/-- The shuffled pool is a permutation of the five non-target symbols. -/
lemma shuffledSymbols_perm (rnd : ℕ → ℚ) (exclude : String) :
    List.Perm (shuffledSymbols rnd exclude)
      (SYMBOL_ORDER.filter (fun sym => sym ≠ exclude)) :=
  foldl_shuffle_perm rnd _ _

/-- Re-attaching a member of the symbol set to the front of the set
minus that member is a permutation of the set. -/
lemma cons_filter_perm (t : String) (ht : t ∈ SYMBOL_ORDER) :
    List.Perm (t :: SYMBOL_ORDER.filter (fun sym => sym ≠ t)) SYMBOL_ORDER := by
  fin_cases ht <;> decide

/-- Removing one member of the six-symbol set leaves five symbols. -/
lemma filter_ne_length (t : String) (ht : t ∈ SYMBOL_ORDER) :
    (SYMBOL_ORDER.filter (fun sym => sym ≠ t)).length = 5 := by
  fin_cases ht <;> decide

/-- A list of length five is a five-element literal. -/
lemma length5_shape {α : Type} (l : List α) (h : l.length = 5) :
    ∃ a b c d e, l = [a, b, c, d, e] := by
  rcases l with _ | ⟨a, l⟩; · simp at h
  rcases l with _ | ⟨b, l⟩; · simp at h
  rcases l with _ | ⟨c, l⟩; · simp at h
  rcases l with _ | ⟨d, l⟩; · simp at h
  rcases l with _ | ⟨e, l⟩; · simp at h
  rcases l with _ | ⟨f, l⟩
  · exact ⟨a, b, c, d, e, rfl⟩
  · simp at h

/-- For a target in the symbol set, the six faces built for a reel are a
permutation of the whole symbol set. -/
lemma buildFaces_perm (rnd : ℕ → ℚ) (t : String) (ht : t ∈ SYMBOL_ORDER) :
    List.Perm (buildFaces rnd t) SYMBOL_ORDER := by
  have hperm := shuffledSymbols_perm rnd t
  have hlen : (shuffledSymbols rnd t).length = 5 :=
    hperm.length_eq.trans (filter_ne_length t ht)
  obtain ⟨a, b, c, d, e, heq⟩ := length5_shape _ hlen
  rw [heq] at hperm
  have h1 : List.Perm [a, b, c, d, t, e] (t :: [a, b, c, d, e]) := by
    simpa using @List.perm_middle String t [a, b, c, d] [e]
  have h2 : List.Perm (t :: [a, b, c, d, e])
      (t :: SYMBOL_ORDER.filter (fun sym => sym ≠ t)) := List.Perm.cons t hperm
  have h3 : buildFaces rnd t = [a, b, c, d, t, e] := by
    simp [buildFaces, heq]
  rw [h3]
  exact h1.trans (h2.trans (cons_filter_perm t ht))

/-- Claim C7: the symbol set is a fixed enumeration of exactly the six
named tokens CHERRY, LEMON, STAR, BELL, DIAMOND, SEVEN, and every symbol
placed on a reel face for an in-set target is drawn from this set. -/
theorem claim_symbol_set :
    SYMBOL_ORDER = ["CHERRY", "LEMON", "STAR", "BELL", "DIAMOND", "SEVEN"] ∧
    SYMBOL_ORDER.length = 6 ∧
    ∀ (rnd : ℕ → ℚ) (t : String), t ∈ SYMBOL_ORDER →
      ∀ s ∈ buildFaces rnd t, s ∈ SYMBOL_ORDER := by
  refine ⟨by decide, by decide, ?_⟩
  intro rnd t ht s hs
  exact (buildFaces_perm rnd t ht).mem_iff.mp hs

/-- Witness for claim C7 at the target CHERRY with a constant random
oracle. -/
theorem claim_symbol_set_witness :
    "CHERRY" ∈ SYMBOL_ORDER ∧
    "LEMON" ∈ buildFaces (fun _ => 0) "CHERRY" ∧
    "LEMON" ∈ SYMBOL_ORDER := by
  have hfaces : buildFaces (fun _ => 0) "CHERRY"
      = ["STAR", "BELL", "DIAMOND", "SEVEN", "CHERRY", "LEMON"] := by
    simp [buildFaces, shuffledSymbols, downFrom, shuffleStep,
      SYMBOL_ORDER, SYMBOL_EMOJI]
  have hmem : "LEMON" ∈ buildFaces (fun _ => 0) "CHERRY" := by
    rw [hfaces]; decide
  exact ⟨by decide, hmem,
    claim_symbol_set.2.2 (fun _ => 0) "CHERRY" (by decide) "LEMON" hmem⟩

/-- Claim C9: for an in-set target, `buildFaces` returns six pairwise
distinct faces forming a permutation of the symbol set, with the front
(+z, index 4) face equal to the target, and `shuffledSymbols` returns a
permutation of the five other symbols. -/
theorem claim_buildFaces (rnd : ℕ → ℚ) (t : String) (ht : t ∈ SYMBOL_ORDER) :
    List.Perm (buildFaces rnd t) SYMBOL_ORDER ∧
    (buildFaces rnd t)[4]? = some t ∧
    (buildFaces rnd t).Nodup ∧
    List.Perm (shuffledSymbols rnd t)
      (SYMBOL_ORDER.filter (fun sym => sym ≠ t)) := by
  refine ⟨buildFaces_perm rnd t ht, ?_, ?_, shuffledSymbols_perm rnd t⟩
  · simp [buildFaces]
  · exact (buildFaces_perm rnd t ht).nodup_iff.mpr (by decide)

/-- Witness for claim C9 at the target CHERRY with a constant random
oracle. -/
theorem claim_buildFaces_witness :
    "CHERRY" ∈ SYMBOL_ORDER ∧
    (List.Perm (buildFaces (fun _ => 0) "CHERRY") SYMBOL_ORDER ∧
     (buildFaces (fun _ => 0) "CHERRY")[4]? = some "CHERRY" ∧
     (buildFaces (fun _ => 0) "CHERRY").Nodup ∧
     List.Perm (shuffledSymbols (fun _ => 0) "CHERRY")
       (SYMBOL_ORDER.filter (fun sym => sym ≠ "CHERRY"))) :=
  ⟨by decide, claim_buildFaces (fun _ => 0) "CHERRY" (by decide)⟩

/-- Claim C2: a simulated trigger is gated by simulator mode: on a
spacebar keydown the POST to /api/simulate-hit is issued if and only if
the simulatorMode checkbox is checked, and with simulator mode disabled
no key issues a request. -/
theorem claim_simulate_gate :
    (∀ checked : Bool, (keydownHandler "Space" checked).isSome = checked) ∧
    (∀ code : String, keydownHandler code false = none) ∧
    keydownHandler "Space" true =
      some { url := "/api/simulate-hit", method := "POST" } := by
  refine ⟨?_, ?_, rfl⟩
  · intro checked; cases checked <;> rfl
  · intro code; simp [keydownHandler]

/-- Claim C3: for a non-OK response `fetchJSON` throws an `Error` whose
message is the plain-text body, falling back to "Request failed" for an
empty body, without consulting the JSON parser; for an OK response it
returns the parsed JSON body. -/
theorem claim_fetchJSON :
    (∀ (parse : String → Except String JSValue) (res : HttpResponse),
        res.ok = false →
        fetchJSON parse res =
          .error (if res.bodyText = "" then "Request failed" else res.bodyText)) ∧
    (∀ (p1 p2 : String → Except String JSValue) (res : HttpResponse),
        res.ok = false → fetchJSON p1 res = fetchJSON p2 res) ∧
    (∀ (parse : String → Except String JSValue) (res : HttpResponse),
        res.ok = true → fetchJSON parse res = parse res.bodyText) := by
  refine ⟨?_, ?_, ?_⟩ <;> intro p res h1 <;> try intro h2
  · simp [fetchJSON, h1]
  · simp [fetchJSON, h2]
  · simp [fetchJSON, h1]

/-- Witness for claim C3 at a failed response with empty body. -/
theorem claim_fetchJSON_witness :
    ({ ok := false, bodyText := "" } : HttpResponse).ok = false ∧
    fetchJSON (fun s => .ok (.str s)) { ok := false, bodyText := "" } =
      .error "Request failed" := by
  refine ⟨rfl, ?_⟩
  have h := claim_fetchJSON.1 (fun s => .ok (.str s))
    { ok := false, bodyText := "" } rfl
  simpa using h

/-- Claim C5: every iteration of the polling body awaits exactly one
sleep of exactly 900 milliseconds, whether the fetch failed, returned no
event, or returned an event; 900 ms is sub-second. -/
theorem claim_poll_interval :
    (∀ (now r1 r2 r3 : ℚ) (prefs : AudioPrefs)
        (resp : Except String NextEvent) (st : HomeState),
        (pollBody now r1 r2 r3 prefs resp st).2 = [900]) ∧
    (900 : ℚ) < 1000 := by
  refine ⟨?_, by norm_num⟩
  intro now r1 r2 r3 prefs resp st
  rcases resp with e | d
  · rfl
  · by_cases h : d.eventAvailable <;> simp [pollBody, h]

/-- Trimming with enough fuel keeps exactly the first five entries. -/
lemma trimWhile_eq_take :
    ∀ (fuel : ℕ) (l : List LogEntry), l.length ≤ 5 + fuel →
      trimWhile fuel l = l.take 5 := by
  intro fuel
  induction fuel with
  | zero =>
    intro l hl
    simpa [trimWhile] using (List.take_of_length_le (by omega)).symm
  | succ fuel ih =>
    intro l hl
    by_cases h : l.length > 5
    · rw [trimWhile, if_pos h, ih l.dropLast (by simp [List.length_dropLast]; omega)]
      rw [List.dropLast_eq_take, List.take_take]
      congr 1
      omega
    · rw [trimWhile, if_neg h]
      exact (List.take_of_length_le (by omega)).symm

/-- `logEvent` keeps the first five entries of the prepended log. -/
lemma logEvent_eq (event : NextEvent) (log : List LogEntry) :
    logEvent event log = (logLine event :: log).take 5 := by
  unfold logEvent
  exact trimWhile_eq_take _ _ (by simp)

/-- Claim C6: the on-screen event log is bounded: after every `logEvent`
call the log holds at most 5 entries with the newest first, and logging
onto a full log of 5 entries drops the oldest (last) entry. -/
theorem claim_log_bound :
    (∀ (event : NextEvent) (log : List LogEntry),
        (logEvent event log).length ≤ 5) ∧
    (∀ (event : NextEvent) (log : List LogEntry),
        (logEvent event log).head? = some (logLine event)) ∧
    (∀ (event : NextEvent) (log : List LogEntry), log.length = 5 →
        logEvent event log = logLine event :: log.dropLast) := by
  refine ⟨?_, ?_, ?_⟩
  · intro e log; rw [logEvent_eq]; exact List.length_take_le 5 _
  · intro e log; rw [logEvent_eq]; rfl
  · intro e log hlen
    obtain ⟨a, b, c, d, e5, rfl⟩ := length5_shape log hlen
    rw [logEvent_eq]
    rfl

/-- Witness for claim C6 on a full log of five identical entries. -/
theorem claim_log_bound_witness :
    (List.replicate 5
        ({ tsMillis := 0, source := "sensor", win := false, reels := [] } :
          LogEntry)).length = 5 ∧
    logEvent
        { eventAvailable := true, created_at := 0, source := "test",
          win := true, reels := [] }
        (List.replicate 5
          { tsMillis := 0, source := "sensor", win := false, reels := [] }) =
      logLine
          { eventAvailable := true, created_at := 0, source := "test",
            win := true, reels := [] } ::
        (List.replicate 5
          ({ tsMillis := 0, source := "sensor", win := false, reels := [] } :
            LogEntry)).dropLast :=
  ⟨by simp,
    claim_log_bound.2.2
      { eventAvailable := true, created_at := 0, source := "test",
        win := true, reels := [] }
      (List.replicate 5
        { tsMillis := 0, source := "sensor", win := false, reels := [] })
      (by simp)⟩

/-- Claim C10: config degrades to defaults: a failed config fetch keeps
the home-page audio preferences at their enabled defaults; on the
settings page a missing (undefined or null) win_ratio defaults to 0.25,
the audio checkboxes are checked unless the field is exactly `false`,
and the simulator checkbox is checked exactly when the field is truthy. -/
theorem claim_config_defaults :
    (∀ msg : String,
        loadAudioPrefs (.error msg) initialAudioPrefs =
          { music := true, sfx := true }) ∧
    (∀ (d : ConfigJson) (dom : SettingsDom),
        ConfigJson.win_ratio d = JSValue.undef ∨
          ConfigJson.win_ratio d = JSValue.null →
        (loadConfig (.ok d) dom).winRatioValue = JSValue.num 0.25) ∧
    (∀ (d : ConfigJson) (dom : SettingsDom),
        ((loadConfig (.ok d) dom).musicChecked = true ↔
          ConfigJson.music_enabled d ≠ JSValue.bool false) ∧
        ((loadConfig (.ok d) dom).sfxChecked = true ↔
          ConfigJson.sfx_enabled d ≠ JSValue.bool false)) ∧
    (∀ (d : ConfigJson) (dom : SettingsDom),
        (loadConfig (.ok d) dom).simulatorChecked =
          JSValue.truthy (ConfigJson.simulator_mode d)) := by
  refine ⟨fun msg => rfl, ?_, ?_, fun d dom => rfl⟩
  · intro d dom h
    rcases h with h | h <;> simp [loadConfig, JSValue.coalesce, h]
  · intro d dom
    constructor <;> simp [loadConfig]

/-- Witness for claim C10 at a config response with all fields absent. -/
theorem claim_config_defaults_witness :
    (ConfigJson.win_ratio
        { win_ratio := .undef, simulator_mode := .undef,
          music_enabled := .undef, sfx_enabled := .undef } = JSValue.undef ∨
      ConfigJson.win_ratio
        { win_ratio := .undef, simulator_mode := .undef,
          music_enabled := .undef, sfx_enabled := .undef } = JSValue.null) ∧
    (loadConfig
        (.ok { win_ratio := .undef, simulator_mode := .undef,
               music_enabled := .undef, sfx_enabled := .undef })
        { winRatioValue := .num 0, simulatorChecked := false,
          musicChecked := true, sfxChecked := true,
          statusText := "" }).winRatioValue = JSValue.num 0.25 :=
  ⟨Or.inl rfl,
    claim_config_defaults.2.1
      { win_ratio := .undef, simulator_mode := .undef,
        music_enabled := .undef, sfx_enabled := .undef }
      { winRatioValue := .num 0, simulatorChecked := false,
        musicChecked := true, sfxChecked := true, statusText := "" }
      (Or.inl rfl)⟩

/-- Claim C8: after a spin started for an event settles (all reels
locked and the settle delay elapsed), the WIN banner is visible if and
only if the event's win field was true: `spin` stores exactly the
event's win flag, the settle branch shows the banner exactly on that
flag, and the DOM outcome of `updateSpin` never depends on the displayed
reel targets. -/
theorem claim_win_banner :
    (∀ (now r1 r2 r3 : ℚ) (result : NextEvent) (s : SpinState)
        (dom : HomeDom) (prefs : AudioPrefs),
        (spin now r1 r2 r3 result s dom prefs).1.isWin = result.win ∧
        (spin now r1 r2 r3 result s dom prefs).2.1.winBannerHidden = true) ∧
    (∀ (now : ℚ) (s : SpinState) (dom : HomeDom) (prefs : AudioPrefs),
        s.active = true →
        (List.range 3).all (fun idx => s.locked.getD idx false) = true →
        now - s.start ≥ s.maxDuration + s.settleDelay →
        (updateSpin now s dom prefs).2.1.winBannerHidden = !s.isWin) ∧
    (∀ (now : ℚ) (s : SpinState) (dom : HomeDom) (prefs : AudioPrefs)
        (tg1 tg2 : List String),
        (updateSpin now { s with targets := tg1 } dom prefs).2.1 =
          (updateSpin now { s with targets := tg2 } dom prefs).2.1) := by
  refine ⟨fun now r1 r2 r3 result s dom prefs => ⟨rfl, rfl⟩, ?_, ?_⟩
  · intro now s dom prefs hact hlock hsettle
    have hd : decide (now - s.start ≥ s.maxDuration + s.settleDelay) = true :=
      decide_eq_true hsettle
    simp at hlock
    simp [updateSpin, hact, hd]
    rw [if_pos hlock]
  · intro now s dom prefs tg1 tg2
    simp only [updateSpin]
    split
    · rfl
    · split
      · rfl
      · rfl

/-- Witness for claim C8 on a fully locked winning spin past its settle
time. -/
theorem claim_win_banner_witness :
    ({ active := true, start := 0, durations := [1, 1, 1],
       locked := [true, true, true], targets := [], isWin := true,
       settleDelay := 350, maxDuration := 1 } : SpinState).active = true ∧
    (List.range 3).all
      (fun idx =>
        ({ active := true, start := 0, durations := [1, 1, 1],
           locked := [true, true, true], targets := [], isWin := true,
           settleDelay := 350, maxDuration := 1 } :
          SpinState).locked.getD idx false) = true ∧
    (1000 : ℚ) - 0 ≥ 1 + 350 ∧
    (updateSpin 1000
        { active := true, start := 0, durations := [1, 1, 1],
          locked := [true, true, true], targets := [], isWin := true,
          settleDelay := 350, maxDuration := 1 }
        { winBannerHidden := true, statusMessage := "" }
        { music := false, sfx := false }).2.1.winBannerHidden = !true :=
  ⟨rfl, by decide, by norm_num,
    claim_win_banner.2.1 1000
      { active := true, start := 0, durations := [1, 1, 1],
        locked := [true, true, true], targets := [], isWin := true,
        settleDelay := 350, maxDuration := 1 }
      { winBannerHidden := true, statusMessage := "" }
      { music := false, sfx := false }
      rfl (by decide) (by norm_num)⟩

/-- Claim C4: a polled next-event response with `eventAvailable` starts
a spin whose reel targets are the response's reels and whose win flag is
the response's win field, and logs the event with its `created_at`
interpreted as epoch seconds (multiplied by 1000 for the millisecond
`Date`). -/
theorem claim_poll_event (now r1 r2 r3 : ℚ) (prefs : AudioPrefs)
    (d : NextEvent) (st : HomeState) (h : d.eventAvailable = true) :
    (pollBody now r1 r2 r3 prefs (.ok d) st).1.spinS.targets = d.reels ∧
    (pollBody now r1 r2 r3 prefs (.ok d) st).1.spinS.isWin = d.win ∧
    (pollBody now r1 r2 r3 prefs (.ok d) st).1.spinS.active = true ∧
    (pollBody now r1 r2 r3 prefs (.ok d) st).1.log.head? =
      some { tsMillis := d.created_at * 1000, source := d.source,
             win := d.win, reels := d.reels } := by
  refine ⟨?_, ?_, ?_, ?_⟩ <;>
    simp [pollBody, h, spin, logEvent_eq, logLine]

/-- Witness for claim C4 on a concrete available event. -/
theorem claim_poll_event_witness :
    ({ eventAvailable := true, created_at := 7, source := "sensor",
       win := true, reels := ["SEVEN", "SEVEN", "SEVEN"] } :
        NextEvent).eventAvailable = true ∧
    ((pollBody 0 0 0 0 { music := true, sfx := true }
        (.ok { eventAvailable := true, created_at := 7, source := "sensor",
               win := true, reels := ["SEVEN", "SEVEN", "SEVEN"] })
        { spinS := initialSpinState,
          dom := { winBannerHidden := true, statusMessage := "" },
          log := [] }).1.spinS.targets = ["SEVEN", "SEVEN", "SEVEN"] ∧
      (pollBody 0 0 0 0 { music := true, sfx := true }
        (.ok { eventAvailable := true, created_at := 7, source := "sensor",
               win := true, reels := ["SEVEN", "SEVEN", "SEVEN"] })
        { spinS := initialSpinState,
          dom := { winBannerHidden := true, statusMessage := "" },
          log := [] }).1.spinS.isWin = true ∧
      (pollBody 0 0 0 0 { music := true, sfx := true }
        (.ok { eventAvailable := true, created_at := 7, source := "sensor",
               win := true, reels := ["SEVEN", "SEVEN", "SEVEN"] })
        { spinS := initialSpinState,
          dom := { winBannerHidden := true, statusMessage := "" },
          log := [] }).1.spinS.active = true ∧
      (pollBody 0 0 0 0 { music := true, sfx := true }
        (.ok { eventAvailable := true, created_at := 7, source := "sensor",
               win := true, reels := ["SEVEN", "SEVEN", "SEVEN"] })
        { spinS := initialSpinState,
          dom := { winBannerHidden := true, statusMessage := "" },
          log := [] }).1.log.head? =
        some { tsMillis := (7 : ℚ) * 1000, source := "sensor",
               win := true, reels := ["SEVEN", "SEVEN", "SEVEN"] }) :=
  ⟨rfl,
    claim_poll_event 0 0 0 0 { music := true, sfx := true }
      { eventAvailable := true, created_at := 7, source := "sensor",
        win := true, reels := ["SEVEN", "SEVEN", "SEVEN"] }
      { spinS := initialSpinState,
        dom := { winBannerHidden := true, statusMessage := "" },
        log := [] }
      rfl⟩

/-! ## Helper lemmas: arithmetic of the even-spacing placement -/

/-- Ceiling bound: `x ≤ n * ⌈x / n⌉` with the ceiling written as
`(x + n - 1) / n`. -/
lemma le_mul_ceil (x n : ℕ) (hn : 0 < n) : x ≤ n * ((x + n - 1) / n) := by
  have h1 := Nat.div_add_mod (x + n - 1) n
  have h2 : (x + n - 1) % n < n := Nat.mod_lt _ hn
  generalize hq : n * ((x + n - 1) / n) = t at h1 ⊢
  generalize hr : (x + n - 1) % n = r at h1 h2
  omega

/-- Floor division is superadditive. -/
lemma div_add_div_le (a b c : ℕ) (hc : 0 < c) : a / c + b / c ≤ (a + b) / c := by
  rw [Nat.le_div_iff_mul_le hc, Nat.add_mul]
  exact Nat.add_le_add (Nat.div_mul_le_self a c) (Nat.div_mul_le_self b c)

/-- The placement map `i ↦ i * N / W` is strictly monotone when there
are at least as many slots as wins. -/
lemma winPos_strictMono {N W i j : ℕ} (hWN : W ≤ N) (hW : 0 < W)
    (hij : i < j) : i * N / W < j * N / W := by
  have h1 : i * N / W + N / W ≤ (i * N + N) / W := div_add_div_le _ _ _ hW
  have h2 : 1 ≤ N / W := (Nat.one_le_div_iff hW).mpr hWN
  have h3 : i * N + N ≤ j * N := by
    calc i * N + N = (i + 1) * N := by ring
    _ ≤ j * N := Nat.mul_le_mul_right N hij
  have h5 : (i * N + N) / W ≤ j * N / W := Nat.div_le_div_right h3
  omega

/-- The win positions are pairwise distinct. -/
lemma winPositions_nodup (N W : ℕ) (hWN : W ≤ N) :
    (winPositions N W).Nodup := by
  rcases Nat.eq_zero_or_pos W with h0 | hpos
  · subst h0; simp [winPositions]
  · refine List.Nodup.map_on ?_ (List.nodup_range W)
    intro x hx y hy hxy
    by_contra hne
    rcases Nat.lt_or_ge x y with hlt | hge
    · exact absurd hxy (Nat.ne_of_lt (winPos_strictMono hWN hpos hlt))
    · have hyx : y < x := Nat.lt_of_le_of_ne hge (fun h => hne h.symm)
      exact absurd hxy.symm (Nat.ne_of_lt (winPos_strictMono hWN hpos hyx))

/-- Every win position lies inside the cycle. -/
lemma winPositions_lt (N W : ℕ) (hW : 0 < W) (hN : 0 < N) :
    ∀ p ∈ winPositions N W, p < N := by
  intro p hp
  simp only [winPositions, List.mem_map, List.mem_range] at hp
  obtain ⟨i, hi, rfl⟩ := hp
  rw [Nat.div_lt_iff_lt_mul hW]
  calc i * N < W * N := mul_lt_mul_of_pos_right hi hN
  _ = N * W := Nat.mul_comm W N

/-- The generated cycle has one slot per position. -/
lemma generate_length (N : ℕ) (r : ℚ) : (generate N r).length = N := by
  simp [generate]

/-- The generated cycle has exactly `winCount` win slots. -/
lemma generate_count (N : ℕ) (r : ℚ) :
    (generate N r).count true = winCount N r := by
  classical
  have hWN : winCount N r ≤ N := Nat.min_le_right _ _
  rcases Nat.eq_zero_or_pos (winCount N r) with h0 | hpos
  · rw [h0]
    simp [generate, winPositions, h0, List.count_replicate]
  · have hN : 0 < N := Nat.lt_of_lt_of_le hpos hWN
    have h1 : (generate N r).count true
        = ((List.range N).filter
            (fun k => decide (k ∈ winPositions N (winCount N r)))).length := by
      simp only [generate, List.count, List.countP_map]
      rw [List.countP_eq_length_filter]
      simp [Function.comp_def]
    have h2 : ((List.range N).filter
        (fun k => decide (k ∈ winPositions N (winCount N r)))).Perm
        (winPositions N (winCount N r)) := by
      apply (List.perm_ext_iff_of_nodup
        (List.Nodup.filter _ (List.nodup_range N))
        (winPositions_nodup N _ hWN)).mpr
      intro x
      simp only [List.mem_filter, List.mem_range, decide_eq_true_eq]
      constructor
      · exact fun h => h.2
      · intro hx
        exact ⟨winPositions_lt N _ hpos hN x hx, hx⟩
    rw [h1, h2.length_eq]
    simp [winPositions]

/-- Core arithmetic of the window argument: an index `i0` whose scaled
position is squeezed between `a` and `a + c` exists below `W`. -/
lemma window_core (N W a c i0 : ℕ) (hW : 0 < W) (hN : 0 < N)
    (hc1 : c = (N - 1) / W + 1) (hcW : N ≤ W * c)
    (hA : a * W ≤ i0 * N) (hB : i0 * N ≤ a * W + N - 1)
    (ha : a + c < N) :
    i0 < W ∧ a ≤ i0 * N / W ∧ i0 * N / W < a + c := by
  have hpos1 : 1 ≤ a * W + N := Nat.le_trans hN (Nat.le_add_left N (a * W))
  have key2 : a * W + N ≤ W * N := by
    have h5 : W * (a + c + 1) ≤ W * N := Nat.mul_le_mul_left W (by omega)
    have h6 : W * (a + c + 1) = W * a + W * c + W := by ring
    have h7 : a * W = W * a := Nat.mul_comm a W
    linarith
  have hi0N : i0 * N < W * N := by
    have hsub : a * W + N - 1 < a * W + N := Nat.sub_lt hpos1 Nat.one_pos
    exact Nat.lt_of_le_of_lt hB (Nat.lt_of_lt_of_le hsub key2)
  have hi0W : i0 < W := lt_of_mul_lt_mul_right hi0N (Nat.zero_le N)
  have hp1 : a ≤ i0 * N / W := by
    have h1 : a * W / W ≤ i0 * N / W := Nat.div_le_div_right hA
    rwa [Nat.mul_div_cancel a hW] at h1
  have hp2 : i0 * N / W < a + c := by
    have he : a * W + N - 1 = W * a + (N - 1) := by
      rw [Nat.add_sub_assoc hN (a * W), Nat.mul_comm a W]
    have h3 : i0 * N / W ≤ (W * a + (N - 1)) / W :=
      Nat.div_le_div_right (he ▸ hB)
    rw [Nat.mul_add_div hW] at h3
    omega
  exact ⟨hi0W, hp1, hp2⟩

/-- Every window of `⌈N / W⌉ + 1` consecutive in-range slots contains a
win position. -/
lemma window_has_win (N W a : ℕ) (hW : 0 < W) (hWN : W ≤ N)
    (ha : a + N ⌈/⌉ W < N) :
    ∃ p ∈ winPositions N W, a ≤ p ∧ p < a + N ⌈/⌉ W := by
  have hN : 0 < N := Nat.lt_of_lt_of_le hW hWN
  have hc1 : N ⌈/⌉ W = (N - 1) / W + 1 := by
    rw [Nat.ceilDiv_eq_add_pred_div]
    rw [show N + W - 1 = W * 1 + (N - 1) by omega, Nat.mul_add_div hW]
    exact Nat.add_comm 1 ((N - 1) / W)
  have hcW : N ≤ W * (N ⌈/⌉ W) := by
    rw [Nat.ceilDiv_eq_add_pred_div]
    exact le_mul_ceil N W hW
  have hA : a * W ≤ ((a * W + N - 1) / N) * N := by
    have h := le_mul_ceil (a * W) N hN
    rwa [Nat.mul_comm N ((a * W + N - 1) / N)] at h
  have hB : ((a * W + N - 1) / N) * N ≤ a * W + N - 1 :=
    Nat.div_mul_le_self _ _
  obtain ⟨hiW, hp1, hp2⟩ :=
    window_core N W a (N ⌈/⌉ W) ((a * W + N - 1) / N) hW hN hc1 hcW hA hB ha
  refine ⟨((a * W + N - 1) / N) * N / W, ?_, hp1, hp2⟩
  simp only [winPositions, List.mem_map, List.mem_range]
  exact ⟨(a * W + N - 1) / N, hiW, rfl⟩

/-- A slot at a win position reads `true` in the generated cycle. -/
lemma generate_win_at (N : ℕ) (r : ℚ) (p : ℕ) (hp : p < N)
    (hmem : p ∈ winPositions N (winCount N r)) :
    (generate N r)[p]? = some true := by
  rw [generate, List.getElem?_map, List.getElem?_range hp]
  simp [hmem]

/-- Claim C1: for every cycle length `N ≥ 1` and win ratio `r ∈ [0,1]`,
the generated cycle has `N` slots of which exactly `winCount N r =
round(r × N)` (clamped to `[0, N]`) are wins, and when `winCount > 0` no
run of consecutive loss slots exceeds `⌈N / winCount⌉`.  The backend
generator is modelled from the spec (section 4.1). -/
theorem claim_cycle (N : ℕ) (q : ℚ) (hN : 1 ≤ N) (h0 : 0 ≤ q) (h1 : q ≤ 1) :
    (generate N q).length = N ∧
    (generate N q).count true = winCount N q ∧
    ((winCount N q : ℤ) = round (q * N) ∧ winCount N q ≤ N) ∧
    (0 < winCount N q →
      ∀ a len,
        (∀ j, a ≤ j → j < a + len → (generate N q)[j]? = some false) →
        len ≤ N ⌈/⌉ winCount N q) := by
  refine ⟨generate_length N q, generate_count N q, ⟨?_, Nat.min_le_right _ _⟩, ?_⟩
  · have hr0 : 0 ≤ round (q * N) := by
      rw [round_eq]
      refine Int.floor_nonneg.mpr ?_
      have : (0 : ℚ) ≤ q * N := mul_nonneg h0 (Nat.cast_nonneg N)
      linarith
    have hrN : round (q * N) ≤ N := by
      rw [round_eq]
      have hqn : q * N ≤ N := by
        have := mul_le_of_le_one_left (Nat.cast_nonneg N : (0 : ℚ) ≤ N) h1
        simpa using this
      calc ⌊q * N + 1 / 2⌋ ≤ ⌊(1 : ℚ) / 2 + N⌋ := Int.floor_le_floor (by linarith)
      _ = ⌊(1 : ℚ) / 2⌋ + N := Int.floor_add_nat (1 / 2) N
      _ = N := by norm_num
    simp only [winCount]
    omega
  · intro hpos a len hrun
    by_contra hlen
    push_neg at hlen
    have hWN : winCount N q ≤ N := Nat.min_le_right _ _
    have hin : a + N ⌈/⌉ winCount N q < N := by
      have h5 := hrun (a + N ⌈/⌉ winCount N q) (by omega) (by omega)
      obtain ⟨hlt, -⟩ := List.getElem?_eq_some_iff.mp h5
      rwa [generate_length N q] at hlt
    obtain ⟨p, hpmem, hp1, hp2⟩ :=
      window_has_win N (winCount N q) a hpos hWN hin
    have hwin : (generate N q)[p]? = some true :=
      generate_win_at N q p (by omega) hpmem
    have hloss : (generate N q)[p]? = some false :=
      hrun p hp1 (by omega)
    rw [hwin] at hloss
    simp at hloss

/-- Witness for claim C1 at the spec's concrete scenario: 20 slots and a
quarter win ratio. -/
theorem claim_cycle_witness :
    (1 : ℕ) ≤ 20 ∧ (0 : ℚ) ≤ 1 / 4 ∧ (1 / 4 : ℚ) ≤ 1 ∧
    ((generate 20 (1 / 4)).length = 20 ∧
     (generate 20 (1 / 4)).count true = winCount 20 (1 / 4) ∧
     ((winCount 20 (1 / 4) : ℤ) = round ((1 / 4 : ℚ) * 20) ∧
       winCount 20 (1 / 4) ≤ 20) ∧
     (0 < winCount 20 (1 / 4) →
       ∀ a len,
         (∀ j, a ≤ j → j < a + len →
           (generate 20 (1 / 4))[j]? = some false) →
         len ≤ 20 ⌈/⌉ winCount 20 (1 / 4))) :=
  ⟨by norm_num, by norm_num, by norm_num,
    claim_cycle 20 (1 / 4) (by norm_num) (by norm_num) (by norm_num)⟩

end LootBin
